import Mathlib

/-!
Shallow embedding of the NDL-OCR Lite Lambda sources: `lambda/input_parser.py`,
`lambda/pdf_utils.py`, `lambda/ocr_engine.py` and `lambda/handler.py`.

Modelling conventions: Python strings are `List Char`, raw bytes are `List Nat`,
Python floats are `ℚ`, a raised exception is an `Except.error` carrying a
`PyErr` (which distinguishes `ValueError` from every other exception type, the
distinction the handler's `except` clauses make), and external effects (S3,
PIL, pypdfium2, the ONNX models, `uuid`, the filesystem) are oracles collected
in a `World` record plus an explicit filesystem state threaded through the
functions that touch disk.
-/

/-! ## Definitions (shallow embedding of the source) -/

abbrev Str := List Char

abbrev Bytes := List Nat

/-- A raised Python exception: a `ValueError` or any other exception,
carrying the exception type name and message. -/
inductive PyErr where
  | valueError (msg : Str)
  | other (ty : Str) (msg : Str)
deriving DecidableEq

/-- Python `str(e)` for an exception: its message. -/
def PyErr.str : PyErr → Str
  | .valueError m => m
  | .other _ m => m

/-- Python `str.strip()`: drop whitespace from both ends. -/
def pyStrip (cs : Str) : Str :=
  (((cs.dropWhile Char.isWhitespace).reverse).dropWhile Char.isWhitespace).reverse

/-- Python `str.split(sep)` for a one-character separator
(`pages_str.split(",")` in `parse_pages`). -/
def pySplit (sep : Char) : Str → List Str
  | [] => [[]]
  | c :: rest =>
    match pySplit sep rest with
    | [] => [[c]]
    | g :: gs => if c = sep then [] :: g :: gs else (c :: g) :: gs

/-- Python `str.split(sep, 1)` as the two pieces around the first separator
(`part.split("-", 1)`); when the separator is absent the whole string is the
first piece (the source only calls this under `"-" in part`). -/
def splitOnce (sep : Char) : Str → Str × Str
  | [] => ([], [])
  | c :: rest =>
    if c = sep then ([], rest)
    else
      let p := splitOnce sep rest
      (c :: p.1, p.2)

/-- Digit run accepted by Python `int()`: ASCII digits with single underscores
between digits (callers ensure the first character is a digit). -/
def parseDigits : Str → Nat → Option Nat
  | [], acc => some acc
  | c :: rest, acc =>
    if c.isDigit then parseDigits rest (10 * acc + (c.toNat - 48))
    else if c = '_' then
      match rest with
      | [] => none
      | d :: _ => if d.isDigit then parseDigits rest acc else none
    else none

/-- Unsigned part of Python `int()`: the first character must be a digit. -/
def pyIntCore (cs : Str) : Option Nat :=
  match cs with
  | [] => none
  | c :: _ => if c.isDigit then parseDigits cs 0 else none

/-- Python `int(s)` in base 10: strip whitespace, optional sign, digit run;
`none` models the raised `ValueError` on a malformed literal. -/
def pyInt (cs : Str) : Option Int :=
  match pyStrip cs with
  | '+' :: rest => (pyIntCore rest).map Int.ofNat
  | '-' :: rest => (pyIntCore rest).map (fun n => -(n : Int))
  | t => (pyIntCore t).map Int.ofNat

/-- Message of the `ValueError` raised by Python `int()`. -/
def invalidIntMsg (s : Str) : Str :=
  "invalid literal for int() with base 10: '".toList ++ s ++ "'".toList

/-- Python `indices.add(p - 1)` on the model of a Python `set` as a duplicate-free
list (insertion position is irrelevant: the set is sorted before return). -/
def setAdd (acc : List Nat) (x : Nat) : List Nat :=
  if x ∈ acc then acc else acc ++ [x]

/-- One guarded insertion of `parse_pages`:
`if 1 <= p <= total_pages: indices.add(p - 1)`. -/
def rangeAdd (total : Nat) (acc : List Nat) (p : Int) : List Nat :=
  if 1 ≤ p ∧ p ≤ (total : Int) then setAdd acc (p - 1).toNat else acc

/-- Python `range(a, b + 1)` over integers, as a list. -/
def intRange (a b : Int) : List Int :=
  (List.range (b + 1 - a).toNat).map (fun i => a + (i : Int))

/-- One comma-separated token of `parse_pages` (`input_parser.py`, the body of
the `for part in pages_str.split(",")` loop). -/
def addToken (total : Nat) (acc : List Nat) (partRaw : Str) : Except PyErr (List Nat) :=
  let part := pyStrip partRaw
  if part.contains '-' then
    let se := splitOnce '-' part
    match pyInt se.1 with
    | none => .error (.valueError (invalidIntMsg (pyStrip se.1)))
    | some a =>
      match pyInt se.2 with
      | none => .error (.valueError (invalidIntMsg (pyStrip se.2)))
      | some b => .ok ((intRange a b).foldl (rangeAdd total) acc)
  else
    match pyInt part with
    | none => .error (.valueError (invalidIntMsg part))
    | some p => .ok (rangeAdd total acc p)

/-- The token loop of `parse_pages`. -/
def addTokens (total : Nat) (acc : List Nat) : List Str → Except PyErr (List Nat)
  | [] => .ok acc
  | t :: rest =>
    match addToken total acc t with
    | .error e => .error e
    | .ok acc2 => addTokens total acc2 rest

/-- Model of `input_parser.parse_pages`: page-selection expression → sorted unique
zero-based indices in `[0, total_pages)`; `.error` models the raised
`ValueError` from `int()` on a malformed token. -/
def parse_pages : Option Str → Nat → Except PyErr (List Nat)
  | none, total_pages => .ok (List.range total_pages)
  | some cs, total_pages =>
    if cs = [] then .ok (List.range total_pages)
    else
      match addTokens total_pages [] (pySplit ',' cs) with
      | .error e => .error e
      | .ok idxs => .ok (List.insertionSort (· ≤ ·) idxs)

/-- Accumulator invariant of the `parse_pages` loop: no duplicates and every
index below the page count. -/
def PagesInv (N : Nat) (l : List Nat) : Prop := l.Nodup ∧ ∀ x ∈ l, x < N

/-- One raw detection from `detector.detect`: axis-aligned box, confidence,
class index (`det["box"]`, `det["confidence"]`, `det["class_index"]`). -/
structure Detection where
  xmin : ℚ
  ymin : ℚ
  xmax : ℚ
  ymax : ℚ
  confidence : ℚ
  class_index : Nat
deriving DecidableEq

/-- The plain 4-entry box appended to `resultobj[0][0]` for class-0 detections. -/
def det4 (d : Detection) : List ℚ := [d.xmin, d.ymin, d.xmax, d.ymax]

/-- The 5-entry box-with-confidence appended to the detection's class bucket. -/
def det5 (d : Detection) : List ℚ := [d.xmin, d.ymin, d.xmax, d.ymax, d.confidence]

/-- The dict `resultobj[1]`: the Python dict from class index to bucket, as an
association list with unique keys. -/
abbrev ClassDict := List (Nat × List (List ℚ))

/-- Initialization `for i in range(17): resultobj[1][i] = []`. -/
def initClassDict : ClassDict := (List.range 17).map (fun i => (i, []))

/-- Append `resultobj[1][k].append(v)`: append to the existing list at key `k`;
`none` models the `KeyError` a missing key would raise. -/
def dictAppend : ClassDict → Nat → List ℚ → Option ClassDict
  | [], _, _ => none
  | (k2, b) :: rest, k, v =>
    if k2 = k then some ((k2, b ++ [v]) :: rest)
    else (dictAppend rest k v).map (fun r => (k2, b) :: r)

/-- Body of the `for det in detections` loop of `process_single_image`
(class-0 plain-box append plus the always-run class-bucket append). -/
def bucketizeStep (acc : List (List ℚ) × ClassDict) (d : Detection) :
    Option (List (List ℚ) × ClassDict) :=
  let c0 := if d.class_index = 0 then acc.1 ++ [det4 d] else acc.1
  (dictAppend acc.2 d.class_index (det5 d)).map (fun d2 => (c0, d2))

/-- Steps 2 of `process_single_image`: build `(resultobj[0][0], resultobj[1])`
from the detection list. -/
def bucketize (dets : List Detection) : Option (List (List ℚ) × ClassDict) :=
  dets.foldlM bucketizeStep ([], initClassDict)

/-- Keyed skeleton of a class dict: every key of `keys` mapped through `g`. -/
def skel (g : Nat → List (List ℚ)) (keys : List Nat) : ClassDict :=
  keys.map (fun i => (i, g i))

/-- Attributes of one `<LINE>` element of the reading-order XML, as read by
`process_single_image`: `int(X)`, `int(Y)`, `int(WIDTH)`, `int(HEIGHT)`, and
the `CONF` attribute after `float()` parsing (`none` when the attribute is
absent or unparseable, i.e. when `float(lineobj.get("CONF"))` raises). -/
structure LineAttrs where
  x : Int
  y : Int
  width : Int
  height : Int
  conf : Option ℚ
deriving DecidableEq

/-- One element of the `contents` array (`jsonobj` in step 6). -/
structure LineResult where
  boundingBox : List (Int × Int)
  id : Nat
  isVertical : Str
  text : Str
  isTextline : Str
  confidence : ℚ
deriving DecidableEq

/-- Step 6 loop body of `process_single_image`: the JSON record emitted for
line `idx`. -/
def makeLineJson (idx : Nat) (l : LineAttrs) (texts : List Str) : LineResult :=
  { boundingBox := [(l.x, l.y), (l.x, l.y + l.height),
      (l.x + l.width, l.y), (l.x + l.width, l.y + l.height)]
    id := idx
    isVertical := "true".toList
    text := texts.getD idx []
    isTextline := "true".toList
    confidence := l.conf.getD 0 }

/-- Step 6 of `process_single_image`: `resjsonarray`, built by enumerating the
ordered lines. -/
def buildContents (lines : List LineAttrs) (texts : List Str) : List LineResult :=
  lines.enum.map (fun p => makeLineJson p.1 p.2 texts)

/-- Python `"\n".join(parts)`. -/
def joinSep (sep : Str) : List Str → Str
  | [] => []
  | [s] => s
  | s :: rest => s ++ sep ++ joinSep sep rest

/-- Counter `tatelinecnt`: lines taller than wide (`line_h > line_w`) counted in
step 4 of `process_single_image`. -/
def tatelinecnt (lines : List LineAttrs) : Nat :=
  (lines.filter (fun l => l.width < l.height)).length

/-- Counter `alllinecnt`: all lines counted in step 4. -/
def alllinecnt (lines : List LineAttrs) : Nat := lines.length

/-- The page-level `text` field of `process_single_image`: the single joined
block, wrapped in a one-element list that is reversed when more than half of
the lines are vertical, then joined again. -/
def pageText (lines : List LineAttrs) (texts : List Str) : Str :=
  let alltextlist : List Str := [joinSep ['\n'] texts]
  let alltextlist :=
    if 0 < alllinecnt lines
        ∧ (1 : ℚ) / 2 < (tatelinecnt lines : ℚ) / (alllinecnt lines : ℚ) then
      alltextlist.reverse
    else alltextlist
  joinSep ['\n'] alltextlist

/-- Filesystem state: the set of existing paths, as a list. -/
abbrev FS := List Str

/-- A Lambda event: a Python dict with string keys and string values. -/
abbrev Event := List (Str × Str)

/-- Python dict lookup (`event.get(k)`); keys are unique. -/
def lookupKey (k : Str) : Event → Option Str
  | [] => none
  | (k2, v) :: rest => if k2 = k then some v else lookupKey k rest

/-- One line of the per-page `contents`-bearing result after
`result["page"] = page_num`: the page number plus the rest of the dict. -/
structure PageResult (β : Type) where
  page : Nat
  body : β
deriving DecidableEq

/-- The `body` field of a handler response. -/
inductive Body (β : Type) where
  | pages (ps : List (PageResult β))
  | error (msg : Str)
  | upload (uploadUrl : Str) (s3Uri : Str)
deriving DecidableEq

/-- A handler response: `{"statusCode": ..., "body": ...}`. -/
structure Response (β : Type) where
  statusCode : Nat
  body : Body β
deriving DecidableEq

/-- External effects, as oracles: S3, base64, PIL decode, pypdfium2 page count
and per-page rendering, whether a written file actually materializes on disk,
the per-page OCR pipeline (`process_single_image`), `uuid`, and presigned-URL
generation. -/
structure World (β : Type) where
  s3Download : Str → Str → Except PyErr Bytes
  b64decode : Str → Except PyErr Bytes
  imageOpen : Bytes → Except PyErr Unit
  pdfPageCount : Bytes → Except PyErr Nat
  renderPage : Nat → Except PyErr Unit
  writeOk : Str → Bool
  processImage : Str → Except PyErr β
  newUuid : Str
  presign : Str → Str → Str

/-- Python `os.path.join` for one component. -/
def pathJoin (d f : Str) : Str := d ++ '/' :: f

/-- The working directory `os.path.join("/tmp", request_id)`. -/
def tmpDir (reqId : Str) : Str := "/tmp/".toList ++ reqId

/-- Python `os.path.basename`. -/
def basename (p : Str) : Str := (p.reverse.takeWhile (fun c => c != '/')).reverse

/-- Decimal digits of a number, most significant first (fuel-based). -/
def natDigitsAux : Nat → Nat → Str
  | 0, _ => []
  | _ + 1, 0 => []
  | fuel + 1, n + 1 => natDigitsAux fuel ((n + 1) / 10) ++ [Char.ofNat (48 + (n + 1) % 10)]

/-- Decimal digits of a positive number; `[]` for 0. -/
def natDigits (n : Nat) : Str := natDigitsAux (n + 1) n

/-- Python `f"{n:03d}"`. -/
def pad3 (n : Nat) : Str :=
  List.replicate (3 - (natDigits n).length) '0' ++ natDigits n

/-- The file name `f"page_{n:03d}.jpg"` as written by `render_pdf_pages`. -/
def pageFileName (n : Nat) : Str := "page_".toList ++ pad3 n ++ ".jpg".toList

/-- The PDF magic signature `b"%PDF-"`. -/
def pdfMagic : Bytes := [0x25, 0x50, 0x44, 0x46, 0x2D]

/-- Model of `input_parser._is_pdf`: `data[:5] == b"%PDF-"`. -/
def _is_pdf (data : Bytes) : Bool := data.take 5 == pdfMagic

/-- Model of `input_parser._is_s3_uri`: `image_str.startswith("s3://")`. -/
def _is_s3_uri (s : Str) : Bool := List.isPrefixOf "s3://".toList s

/-- The regex match `re.match(r"s3://([^/]+)/(.+)", uri)` of `_download_s3`:
nonempty bucket up to the first slash, then a nonempty key of non-newline
characters; `none` models a failed match (→ `ValueError`). -/
def parseS3Uri (s : Str) : Option (Str × Str) :=
  if _is_s3_uri s then
    let rest := s.drop 5
    let bucket := rest.takeWhile (fun c => c != '/')
    match rest.dropWhile (fun c => c != '/') with
    | '/' :: keyRest =>
      let key := keyRest.takeWhile (fun c => c != '\n')
      if bucket = [] then none
      else if key = [] then none
      else some (bucket, key)
    | _ => none
  else none

/-- A file write (`img.save`, `pil_img.save`, `download_file`): the path
appears on disk when the oracle says the write materializes. -/
def writeFile {β : Type} (w : World β) (fs : FS) (p : Str) : FS :=
  if w.writeOk p then p :: fs else fs

/-- The rendering loop of `pdf_utils.render_pdf_pages`: render each selected
zero-based index, save `page_{idx+1:03d}.jpg`, collect paths in order. -/
def renderLoop {β : Type} (w : World β) (workDir : Str) :
    List Nat → FS → Except PyErr (List Str) × FS
  | [], fs => (.ok [], fs)
  | idx :: rest, fs =>
    match w.renderPage idx with
    | .error e => (.error e, fs)
    | .ok _ =>
      let p := pathJoin workDir (pageFileName (idx + 1))
      let fs1 := writeFile w fs p
      match renderLoop w workDir rest fs1 with
      | (.ok ps, fs2) => (.ok (p :: ps), fs2)
      | (.error e, fs2) => (.error e, fs2)

/-- Model of `pdf_utils.render_pdf_pages`: open the PDF, count pages, select, render. -/
def render_pdf_pages {β : Type} (w : World β) (data : Bytes) (workDir : Str)
    (pagesParam : Option Str) (fs : FS) : Except PyErr (List Str) × FS :=
  match w.pdfPageCount data with
  | .error e => (.error e, fs)
  | .ok total =>
    match parse_pages pagesParam total with
    | .error e => (.error e, fs)
    | .ok idxs => renderLoop w workDir idxs fs

/-- Tail of `parse_input` once the byte buffer is in hand: PDF sniff, then
either rasterize the PDF pages or decode-and-save the single image
(`_save_image`, whose decode failure re-raises as `ValueError`). -/
def afterData {β : Type} (w : World β) (data : Bytes) (workDir : Str)
    (pagesParam : Option Str) (fs : FS) : Except PyErr (List Str × Bool) × FS :=
  if _is_pdf data then
    match render_pdf_pages w data workDir pagesParam fs with
    | (.ok paths, fs2) => (.ok ((paths, true)), fs2)
    | (.error e, fs2) => (.error e, fs2)
  else
    match w.imageOpen data with
    | .error e => (.error (.valueError ("Cannot decode image data: ".toList ++ e.str)), fs)
    | .ok _ =>
      let p := pathJoin workDir "page_001.jpg".toList
      (.ok (([p], false)), writeFile w fs p)

/-- Model of `input_parser.parse_input`: missing-image check, `os.makedirs(work_dir)`,
S3 fetch or base64 decode (each failure mode re-raised or propagated exactly
as in the source), then `afterData`. -/
def parse_input {β : Type} (w : World β) (event : Event) (workDir : Str) (fs : FS) :
    Except PyErr (List Str × Bool) × FS :=
  match lookupKey "image".toList event with
  | none => (.error (.valueError "Missing required parameter: image".toList), fs)
  | some img =>
    if img = [] then (.error (.valueError "Missing required parameter: image".toList), fs)
    else
      let pagesParam := lookupKey "pages".toList event
      let fs1 := workDir :: fs
      if _is_s3_uri img then
        match parseS3Uri img with
        | none => (.error (.valueError ("Invalid S3 URI: ".toList ++ img)), fs1)
        | some bk =>
          match w.s3Download bk.1 bk.2 with
          | .error e => (.error e, fs1)
          | .ok data =>
            afterData w data workDir pagesParam
              (writeFile w fs1 (pathJoin workDir "input_file".toList))
      else
        match w.b64decode img with
        | .error e =>
          (.error (.valueError ("Failed to decode base64 image data: ".toList ++ e.str)), fs1)
        | .ok data => afterData w data workDir pagesParam fs1

/-- The per-page loop of `_handle_ocr` (`enumerate(image_paths, start=1)`):
existence check, `process_single_image`, `result["page"] = page_num`. -/
def runPages {β : Type} (w : World β) (fs : FS) :
    Nat → List Str → Except PyErr (List (PageResult β))
  | _, [] => .ok []
  | n, p :: rest =>
    if p ∈ fs then
      match w.processImage p with
      | .error e => .error e
      | .ok b =>
        match runPages w fs (n + 1) rest with
        | .error e => .error e
        | .ok ps => .ok (⟨n, b⟩ :: ps)
    else
      .error (.other "RuntimeError".toList
        ("Expected image file not found: ".toList ++ basename p))

/-- The `try`/`except` of `_handle_ocr`: success → 200, `ValueError` → 400,
any other exception → 500 with the `Internal error:` tag. -/
def respond {β : Type} : Except PyErr (List (PageResult β)) → Response β
  | .ok pages => ⟨200, .pages pages⟩
  | .error (.valueError m) => ⟨400, .error m⟩
  | .error (.other ty m) =>
    ⟨500, .error ("Internal error: ".toList ++ ty ++ ": ".toList ++ m)⟩

/-- Python `shutil.rmtree(work_dir, ignore_errors=True)`: removes the directory and
everything under it when the removal succeeds (`ok = true`); a failed removal
is swallowed and leaves the filesystem as is. -/
def rmtreeIg (ok : Bool) (dir : Str) (fs : FS) : FS :=
  if ok then fs.filter (fun p => !(p == dir || List.isPrefixOf (dir ++ ['/']) p)) else fs

/-- Model of `handler._handle_ocr`: parse input, loop over pages, classify exceptions,
and in `finally` remove the working directory if it exists. -/
def _handle_ocr {β : Type} (w : World β) (reqId : Str) (rmOk : Bool) (event : Event)
    (fs : FS) : Response β × FS :=
  let workDir := tmpDir reqId
  let pr := parse_input w event workDir fs
  let resp :=
    match pr.1 with
    | .error e => respond (β := β) (.error e)
    | .ok pt => respond (runPages w pr.2 1 pt.1)
  let fs2 := if workDir ∈ pr.2 then rmtreeIg rmOk workDir pr.2 else pr.2
  (resp, fs2)

/-- Model of `handler._handle_get_upload_url`: 500 when no image bucket is configured,
otherwise a presigned PUT URL under `uploads/{uuid}/{filename}`. -/
def _handle_get_upload_url {β : Type} (w : World β) (bucket : Str) (event : Event) :
    Response β :=
  if bucket = [] then ⟨500, .error "IMAGE_BUCKET not configured".toList⟩
  else
    let filename := (lookupKey "filename".toList event).getD "image.png".toList
    let key := "uploads/".toList ++ w.newUuid ++ '/' :: filename
    ⟨200, .upload (w.presign bucket key) ("s3://".toList ++ bucket ++ '/' :: key)⟩

/-- Model of `handler.handler`: route on the presence of the `"filename"` key. -/
def handler {β : Type} (w : World β) (bucket : Str) (reqId : Str) (rmOk : Bool)
    (event : Event) (fs : FS) : Response β × FS :=
  if (lookupKey "filename".toList event).isSome then
    (_handle_get_upload_url w bucket event, fs)
  else _handle_ocr w reqId rmOk event fs

/-- A world in which every external effect succeeds trivially. -/
def okWorld : World Unit :=
  { s3Download := fun _ _ => .ok []
    b64decode := fun _ => .ok [1, 2, 3]
    imageOpen := fun _ => .ok ()
    pdfPageCount := fun _ => .ok 0
    renderPage := fun _ => .ok ()
    writeOk := fun _ => true
    processImage := fun _ => .ok ()
    newUuid := "u1".toList
    presign := fun b k => "https://".toList ++ b ++ '/' :: k }

/-- A world whose base64 decode always raises. -/
def badB64World : World Unit :=
  { okWorld with b64decode := fun _ => .error (.other "Error".toList "bad padding".toList) }

/-- A world whose image decode (PIL) always raises. -/
def badImgWorld : World Unit :=
  { okWorld with imageOpen := fun _ => .error (.other "UnidentifiedImageError".toList "cannot identify".toList) }

/-- A world serving a 3-page PDF for any base64 payload. -/
def pdfWorld : World Unit :=
  { okWorld with
    b64decode := fun _ => .ok pdfMagic
    pdfPageCount := fun _ => .ok 3 }

/-- A world in which file writes never materialize on disk. -/
def noWriteWorld : World Unit :=
  { okWorld with writeOk := fun _ => false }

/-- An event carrying only a base64 image. -/
def imgEvent : Event := [("image".toList, "QUFB".toList)]

/-- An event carrying a base64 PDF and the page selection `"1,3"`. -/
def pdfEvent : Event := [("image".toList, "QUFB".toList), ("pages".toList, "1,3".toList)]

/-! ## Theorems -/

theorem setAdd_inv {N x : Nat} {acc : List Nat} (h : PagesInv N acc) (hx : x < N) :
    PagesInv N (setAdd acc x) := by
  by_cases hmem : x ∈ acc
  · simpa [setAdd, hmem] using h
  · constructor
    · simp [setAdd, hmem, List.nodup_append, h.1]
    · intro y hy
      simp only [setAdd, hmem, if_neg, List.mem_append, List.mem_singleton, ite_false] at hy
      rcases hy with h1 | h1
      · exact h.2 y h1
      · subst h1; exact hx

theorem rangeAdd_inv {N : Nat} {acc : List Nat} {p : Int} (h : PagesInv N acc) :
    PagesInv N (rangeAdd N acc p) := by
  unfold rangeAdd
  split
  · next hc => exact setAdd_inv h (by omega)
  · exact h

theorem foldl_rangeAdd_inv {N : Nat} (l : List Int) (acc : List Nat) (h : PagesInv N acc) :
    PagesInv N (l.foldl (rangeAdd N) acc) := by
  induction l generalizing acc with
  | nil => exact h
  | cons p rest ih => exact ih _ (rangeAdd_inv h)

theorem addToken_inv {N : Nat} {acc acc2 : List Nat} {t : Str}
    (hok : addToken N acc t = .ok acc2) (h : PagesInv N acc) : PagesInv N acc2 := by
  unfold addToken at hok
  dsimp only at hok
  split at hok
  · split at hok
    · exact Except.noConfusion hok
    · split at hok
      · exact Except.noConfusion hok
      · simp only [Except.ok.injEq] at hok
        subst hok
        exact foldl_rangeAdd_inv _ _ h
  · split at hok
    · exact Except.noConfusion hok
    · simp only [Except.ok.injEq] at hok
      subst hok
      exact rangeAdd_inv h

theorem addTokens_inv {N : Nat} {acc acc2 : List Nat} {ts : List Str}
    (hok : addTokens N acc ts = .ok acc2) (h : PagesInv N acc) : PagesInv N acc2 := by
  induction ts generalizing acc with
  | nil =>
    simp only [addTokens, Except.ok.injEq] at hok
    subst hok; exact h
  | cons t rest ih =>
    unfold addTokens at hok
    split at hok
    · exact Except.noConfusion hok
    · next a ha => exact ih hok (addToken_inv ha h)

/-- Shared invariant lemma: every successful `parse_pages` output is strictly
ascending and bounded by the page count. -/
theorem parse_pages_sorted_of_ok {s : Option Str} {N : Nat} {l : List Nat}
    (h : parse_pages s N = .ok l) : l.Sorted (· < ·) ∧ ∀ x ∈ l, x < N := by
  have range_case : (List.range N).Sorted (· < ·) ∧ ∀ x ∈ List.range N, x < N :=
    ⟨List.pairwise_lt_range N, fun x hx => List.mem_range.mp hx⟩
  cases s with
  | none =>
    simp only [parse_pages, Except.ok.injEq] at h
    subst h; exact range_case
  | some cs =>
    simp only [parse_pages] at h
    split at h
    · simp only [Except.ok.injEq] at h
      subst h; exact range_case
    · split at h
      · exact Except.noConfusion h
      · next idxs hidx =>
        simp only [Except.ok.injEq] at h
        subst h
        have hinv : PagesInv N idxs := addTokens_inv hidx ⟨List.nodup_nil, by simp⟩
        have hperm : (List.insertionSort (· ≤ ·) idxs).Perm idxs :=
          List.perm_insertionSort _ idxs
        have hsorted : (List.insertionSort (· ≤ ·) idxs).Sorted (· ≤ ·) :=
          List.sorted_insertionSort _ idxs
        have hnd : (List.insertionSort (· ≤ ·) idxs).Nodup := hperm.nodup_iff.mpr hinv.1
        refine ⟨(hsorted.and hnd).imp (fun hc => lt_of_le_of_ne hc.1 hc.2), ?_⟩
        intro x hx
        exact hinv.2 x (hperm.mem_iff.mp hx)

theorem addToken_err {N : Nat} {acc : List Nat} {t : Str} {e : PyErr}
    (h : addToken N acc t = .error e) : ∃ m, e = .valueError m := by
  unfold addToken at h
  dsimp only at h
  split at h
  · split at h
    · simp only [Except.error.injEq] at h
      exact ⟨_, h.symm⟩
    · split at h
      · simp only [Except.error.injEq] at h
        exact ⟨_, h.symm⟩
      · exact Except.noConfusion h
  · split at h
    · simp only [Except.error.injEq] at h
      exact ⟨_, h.symm⟩
    · exact Except.noConfusion h

theorem addTokens_err {N : Nat} {acc : List Nat} {ts : List Str} {e : PyErr}
    (h : addTokens N acc ts = .error e) : ∃ m, e = .valueError m := by
  induction ts generalizing acc with
  | nil => exact Except.noConfusion h
  | cons t rest ih =>
    unfold addTokens at h
    split at h
    · next e2 he =>
      simp only [Except.error.injEq] at h
      subst h
      exact addToken_err he
    · exact ih h

/-- Shared lemma: a `parse_pages` failure is always a `ValueError`. -/
theorem parse_pages_err {s : Option Str} {N : Nat} {e : PyErr}
    (h : parse_pages s N = .error e) : ∃ m, e = .valueError m := by
  cases s with
  | none => exact Except.noConfusion h
  | some cs =>
    simp only [parse_pages] at h
    split at h
    · exact Except.noConfusion h
    · split at h
      · next e2 he =>
        simp only [Except.error.injEq] at h
        subst h
        exact addTokens_err he
      · exact Except.noConfusion h

/-- C4: for all `total_pages ≥ 0` and every selection expression on which the
selector returns, the returned list is strictly ascending, duplicate-free and
every element is a zero-based index `< total_pages`; an in-bounds check guards
each insertion, so an out-of-range page number is silently dropped (the
accumulator is returned unchanged) rather than raising an error. -/
theorem parse_pages_ascending_bounded :
    (∀ (s : Option Str) (N : Nat) (l : List Nat), parse_pages s N = .ok l →
        l.Sorted (· < ·) ∧ l.Nodup ∧ ∀ x ∈ l, x < N)
    ∧ (∀ (N : Nat) (acc : List Nat) (p : Int), ¬(1 ≤ p ∧ p ≤ (N : Int)) →
        rangeAdd N acc p = acc) := by
  constructor
  · intro s N l h
    obtain ⟨hs, hb⟩ := parse_pages_sorted_of_ok h
    exact ⟨hs, hs.imp ne_of_lt, hb⟩
  · intro N acc p hp
    simp [rangeAdd, hp]

theorem parse_pages_ascending_bounded_witness :
    (([1, 3] : List Nat).Sorted (· < ·) ∧ ([1, 3] : List Nat).Nodup
        ∧ ∀ x ∈ ([1, 3] : List Nat), x < 4)
    ∧ rangeAdd 4 [0] 9 = [0] :=
  ⟨parse_pages_ascending_bounded.1 (some "2,4".toList) 4 [1, 3] (by rfl),
   parse_pages_ascending_bounded.2 4 [0] 9 (by decide)⟩

/-- C5: with a null or empty pages expression the selector returns exactly the
list `[0, 1, ..., N - 1]` of all zero-based indices, i.e. `List.range N`,
whose `i`-th entry is `i`. -/
theorem parse_pages_none_all_pages (N : Nat) :
    parse_pages none N = .ok (List.range N)
    ∧ parse_pages (some []) N = .ok (List.range N)
    ∧ (List.range N).length = N
    ∧ ∀ i (hi : i < (List.range N).length), (List.range N).get ⟨i, hi⟩ = i := by
  refine ⟨rfl, rfl, List.length_range N, ?_⟩
  intro i hi
  simp

theorem parse_pages_none_all_pages_witness :
    parse_pages none 3 = .ok (List.range 3)
    ∧ (List.range 3).get ⟨1, by decide⟩ = 1 :=
  ⟨(parse_pages_none_all_pages 3).1,
   (parse_pages_none_all_pages 3).2.2.2 1 (by decide)⟩

/-- C6: the inverted-range expression `"2-1"` selects nothing for every page
count, and in general a range token whose start exceeds its end contributes no
indices because the integer range it folds over is empty. -/
theorem parse_pages_inverted_range :
    (∀ N : Nat, parse_pages (some "2-1".toList) N = .ok [])
    ∧ (∀ (a b : Int) (N : Nat) (acc : List Nat), b < a →
        intRange a b = [] ∧ (intRange a b).foldl (rangeAdd N) acc = acc) := by
  constructor
  · intro N
    rfl
  · intro a b N acc hba
    have h0 : (b + 1 - a).toNat = 0 := by omega
    have he : intRange a b = [] := by simp [intRange, h0]
    exact ⟨he, by rw [he]; rfl⟩

theorem parse_pages_inverted_range_witness :
    parse_pages (some "2-1".toList) 5 = .ok []
    ∧ intRange 7 3 = [] ∧ (intRange 7 3).foldl (rangeAdd 5) [2] = [2] :=
  ⟨parse_pages_inverted_range.1 5,
   (parse_pages_inverted_range.2 7 3 5 [2] (by decide)).1,
   (parse_pages_inverted_range.2 7 3 5 [2] (by decide)).2⟩

theorem skel_cons (g : Nat → List (List ℚ)) (a : Nat) (keys : List Nat) :
    skel g (a :: keys) = (a, g a) :: skel g keys := rfl

theorem skel_congr {g1 g2 : Nat → List (List ℚ)} {keys : List Nat}
    (h : ∀ i ∈ keys, g1 i = g2 i) : skel g1 keys = skel g2 keys :=
  List.map_congr_left (fun i hi => by rw [h i hi])

theorem dictAppend_skel (g : Nat → List (List ℚ)) (keys : List Nat) (k : Nat) (v : List ℚ)
    (hk : k ∈ keys) (hnd : keys.Nodup) :
    dictAppend (skel g keys) k v =
      some (skel (fun i => if i = k then g i ++ [v] else g i) keys) := by
  induction keys with
  | nil => exact absurd hk (List.not_mem_nil k)
  | cons a rest ih =>
    rw [skel_cons, skel_cons]
    simp only [dictAppend]
    by_cases hak : a = k
    · subst hak
      rw [if_pos rfl, if_pos rfl]
      have ha : a ∉ rest := (List.nodup_cons.mp hnd).1
      have hs : skel (fun i => if i = a then g i ++ [v] else g i) rest = skel g rest :=
        skel_congr (fun i hi => by
          have hne : ¬(i = a) := fun he => ha (he ▸ hi)
          simp [hne])
      rw [hs]
    · have hk2 : k ∈ rest := by
        rcases List.mem_cons.mp hk with h1 | h1
        · exact absurd h1.symm hak
        · exact h1
      rw [if_neg hak, if_neg hak, ih hk2 (List.nodup_cons.mp hnd).2]
      rfl

theorem bucketizeStep_skel (d : Detection) (hd : d.class_index < 17)
    (c0 : List (List ℚ)) (g : Nat → List (List ℚ)) :
    bucketizeStep (c0, skel g (List.range 17)) d =
      some ((if d.class_index = 0 then c0 ++ [det4 d] else c0),
        skel (fun i => if i = d.class_index then g i ++ [det5 d] else g i) (List.range 17)) := by
  simp only [bucketizeStep]
  rw [dictAppend_skel g (List.range 17) d.class_index (det5 d)
    (List.mem_range.mpr hd) (List.nodup_range 17)]
  rfl

theorem bucketize_loop (dets : List Detection) (h : ∀ d ∈ dets, d.class_index < 17)
    (c0 : List (List ℚ)) (g : Nat → List (List ℚ)) :
    dets.foldlM bucketizeStep (c0, skel g (List.range 17)) =
      some (c0 ++ (dets.filter (fun d => d.class_index = 0)).map det4,
        skel (fun i => g i ++ (dets.filter (fun d => d.class_index = i)).map det5)
          (List.range 17)) := by
  induction dets generalizing c0 g with
  | nil =>
    simp only [List.foldlM_nil, List.filter_nil, List.map_nil, List.append_nil]
    rfl
  | cons d rest ih =>
    have hd : d.class_index < 17 := h d (List.mem_cons_self d rest)
    have hrest : ∀ x ∈ rest, x.class_index < 17 := fun x hx => h x (List.mem_cons_of_mem d hx)
    rw [List.foldlM_cons, bucketizeStep_skel d hd c0 g]
    rw [show ((some ((if d.class_index = 0 then c0 ++ [det4 d] else c0),
        skel (fun i => if i = d.class_index then g i ++ [det5 d] else g i)
          (List.range 17)) : Option (List (List ℚ) × ClassDict)) >>=
        fun init => rest.foldlM bucketizeStep init) =
        rest.foldlM bucketizeStep
          ((if d.class_index = 0 then c0 ++ [det4 d] else c0),
            skel (fun i => if i = d.class_index then g i ++ [det5 d] else g i)
              (List.range 17)) from rfl]
    rw [ih hrest]
    simp only [Option.some.injEq, Prod.mk.injEq]
    refine ⟨?_, ?_⟩
    · by_cases h0 : d.class_index = 0
      · simp [List.filter_cons, h0, List.append_assoc]
      · simp [List.filter_cons, h0]
    · apply skel_congr
      intro i hi
      by_cases hik : i = d.class_index
      · subst hik
        simp [List.filter_cons, List.append_assoc]
      · have hne : ¬(d.class_index = i) := fun he => hik he.symm
        simp [List.filter_cons, hik, hne]

/-- C7: bucketizing initializes all 17 class keys (each key `0..16` is present,
mapped to `[]` when no detection has that class), processes detections in input
order so each class bucket holds its detections' `[xmin,ymin,xmax,ymax,conf]`
entries in input order, and a class-0 detection is additionally recorded as a
plain `[xmin,ymin,xmax,ymax]` box in the class-0 plain-box list
(double-recorded). -/
theorem bucketize_spec (dets : List Detection) (h : ∀ d ∈ dets, d.class_index < 17) :
    bucketize dets =
      some ((dets.filter (fun d => d.class_index = 0)).map det4,
        (List.range 17).map
          (fun i => (i, (dets.filter (fun d => d.class_index = i)).map det5))) := by
  unfold bucketize
  rw [show initClassDict = skel (fun _ => []) (List.range 17) from rfl,
    bucketize_loop dets h [] (fun _ => [])]
  simp [skel]

theorem bucketize_spec_witness :
    bucketize [⟨1, 2, 3, 4, 5, 0⟩, ⟨6, 7, 8, 9, 10, 2⟩, ⟨11, 12, 13, 14, 15, 0⟩] =
      some ([[1, 2, 3, 4], [11, 12, 13, 14]],
        (List.range 17).map
          (fun i =>
            (i, (([⟨1, 2, 3, 4, 5, 0⟩, ⟨6, 7, 8, 9, 10, 2⟩,
              ⟨11, 12, 13, 14, 15, 0⟩] : List Detection).filter
                (fun d => d.class_index = i)).map det5))) := by
  rw [bucketize_spec _ (by decide)]
  rfl

theorem getD_eq_dite (ts : List Str) (i : Nat) :
    ts.getD i [] = if h : i < ts.length then ts.get ⟨i, h⟩ else [] := by
  by_cases h : i < ts.length
  · rw [dif_pos h, List.getD_eq_getElem ts [] h]
    simp
  · rw [dif_neg h, List.getD_eq_default]
    omega

theorem buildContents_length (lines : List LineAttrs) (texts : List Str) :
    (buildContents lines texts).length = lines.length := by
  simp [buildContents]

/-- C1: the `i`-th emitted line record has `boundingBox` equal to the four
corner points `[(x,y), (x,y+h), (x+w,y), (x+w,y+h)]` in exactly that order,
`id = i`, `isVertical` the literal string `"true"` regardless of geometry,
`isTextline` the literal `"true"`, `text` the `i`-th recognized string when
`i` is within the recognized-text list and `""` otherwise, and `confidence`
the line's parsed confidence or `0` when absent/unparseable. -/
theorem buildContents_record (lines : List LineAttrs) (texts : List Str) (i : Nat)
    (hi : i < (buildContents lines texts).length) (hl : i < lines.length) :
    (buildContents lines texts).get ⟨i, hi⟩ =
      { boundingBox := [((lines.get ⟨i, hl⟩).x, (lines.get ⟨i, hl⟩).y),
          ((lines.get ⟨i, hl⟩).x, (lines.get ⟨i, hl⟩).y + (lines.get ⟨i, hl⟩).height),
          ((lines.get ⟨i, hl⟩).x + (lines.get ⟨i, hl⟩).width, (lines.get ⟨i, hl⟩).y),
          ((lines.get ⟨i, hl⟩).x + (lines.get ⟨i, hl⟩).width,
            (lines.get ⟨i, hl⟩).y + (lines.get ⟨i, hl⟩).height)]
        id := i
        isVertical := "true".toList
        text := if h : i < texts.length then texts.get ⟨i, h⟩ else []
        isTextline := "true".toList
        confidence := ((lines.get ⟨i, hl⟩).conf).getD 0 } := by
  have hb : (buildContents lines texts).get ⟨i, hi⟩ =
      makeLineJson i (lines.get ⟨i, hl⟩) texts := by
    simp [buildContents, makeLineJson]
  rw [hb, makeLineJson, getD_eq_dite]

theorem buildContents_record_witness :
    (buildContents [⟨3, 5, 20, 40, some 7⟩, ⟨10, 11, 12, 13, none⟩]
        [['a', 'b']]).get ⟨1, by decide⟩ =
      { boundingBox := [(10, 11), (10, 24), (22, 11), (22, 24)]
        id := 1
        isVertical := "true".toList
        text := if h : 1 < ([['a', 'b']] : List Str).length
          then ([['a', 'b']] : List Str).get ⟨1, h⟩ else []
        isTextline := "true".toList
        confidence := ((none : Option ℚ)).getD 0 } := by
  rw [buildContents_record [⟨3, 5, 20, 40, some 7⟩, ⟨10, 11, 12, 13, none⟩]
    [['a', 'b']] 1 (by decide) (by decide)]
  rfl

/-- C9: the page-level text always equals the newline-join of the recognized
strings in line order; the vertical-dominant reversal acts on a one-element
list, so it never changes the output, whatever the line geometry (including
pages where more than half of the lines are taller than wide). -/
theorem pageText_eq_join (lines : List LineAttrs) (texts : List Str) :
    pageText lines texts = joinSep ['\n'] texts := by
  unfold pageText
  dsimp only
  split
  · rfl
  · rfl

/-- C10: the top-level handler runs OCR if and only if the event lacks the
`"filename"` key; when `"filename"` is present — even alongside a valid
`"image"` — it returns the presigned-upload-URL response (500 when no bucket
is configured) and leaves the filesystem untouched, never invoking parsing,
detection or recognition. -/
theorem handler_routes_on_filename :
    ∀ (β : Type) (w : World β) (bucket reqId : Str) (rmOk : Bool) (event : Event) (fs : FS),
      ((lookupKey "filename".toList event).isSome →
        handler w bucket reqId rmOk event fs = (_handle_get_upload_url w bucket event, fs))
      ∧ (bucket = [] → (lookupKey "filename".toList event).isSome →
        (handler w bucket reqId rmOk event fs).1.statusCode = 500)
      ∧ ((lookupKey "filename".toList event) = none →
        handler w bucket reqId rmOk event fs = _handle_ocr w reqId rmOk event fs) := by
  intro β w bucket reqId rmOk event fs
  refine ⟨?_, ?_, ?_⟩
  · intro h
    simp only [handler, h]
    rfl
  · intro hb h
    subst hb
    simp only [handler, h]
    rfl
  · intro h
    simp only [handler, h, Option.isSome_none]
    rfl

theorem handler_routes_on_filename_witness :
    (handler okWorld "b1".toList "r1".toList true
        (("filename".toList, "f.png".toList) :: imgEvent) [] =
      (_handle_get_upload_url okWorld "b1".toList
        (("filename".toList, "f.png".toList) :: imgEvent), []))
    ∧ (handler okWorld [] "r1".toList true
        [("filename".toList, "f.png".toList)] []).1.statusCode = 500
    ∧ handler okWorld "b1".toList "r1".toList true imgEvent [] =
      _handle_ocr okWorld "r1".toList true imgEvent [] := by
  obtain ⟨h1, h2, h3⟩ := handler_routes_on_filename Unit okWorld "b1".toList "r1".toList
    true (("filename".toList, "f.png".toList) :: imgEvent) []
  obtain ⟨g1, g2, g3⟩ := handler_routes_on_filename Unit okWorld [] "r1".toList
    true [("filename".toList, "f.png".toList)] []
  obtain ⟨k1, k2, k3⟩ := handler_routes_on_filename Unit okWorld "b1".toList "r1".toList
    true imgEvent []
  exact ⟨h1 (by decide), g2 rfl (by decide), k3 (by decide)⟩

theorem runPages_ok {β : Type} (w : World β) (s : FS) (paths : List Str) (n : Nat)
    (ps : List (PageResult β)) (h : runPages w s n paths = .ok ps) (d : PageResult β) :
    ps.length = paths.length ∧ ∀ i, i < ps.length → (ps.getD i d).page = n + i := by
  induction paths generalizing n ps with
  | nil =>
    simp only [runPages, Except.ok.injEq] at h
    subst h
    exact ⟨rfl, by intro i hi; exact absurd hi (by simp)⟩
  | cons p rest ih =>
    unfold runPages at h
    split at h
    · split at h
      · exact Except.noConfusion h
      · split at h
        · exact Except.noConfusion h
        · next ps2 hrec =>
          simp only [Except.ok.injEq] at h
          subst h
          obtain ⟨hlen, hidx⟩ := ih (n + 1) ps2 hrec
          refine ⟨by simp [hlen], ?_⟩
          intro i hi
          cases i with
          | zero => simp
          | succ j =>
            simp only [List.getD_cons_succ]
            have hj : j < ps2.length := by simpa using hi
            rw [hidx j hj]
            omega
    · exact Except.noConfusion h

theorem respond_eq_200 {β : Type} (r : Except PyErr (List (PageResult β)))
    (ps : List (PageResult β)) (h : respond r = ⟨200, .pages ps⟩) : r = .ok ps := by
  match r with
  | .ok l =>
    simp only [respond, Response.mk.injEq, Body.pages.injEq] at h
    rw [h.2]
  | .error (.valueError m) => simp [respond] at h
  | .error (.other ty m) => simp [respond] at h

theorem renderLoop_paths {β : Type} (w : World β) (workDir : Str) (idxs : List Nat)
    (fs : FS) (hr : ∀ i ∈ idxs, w.renderPage i = .ok ()) :
    (renderLoop w workDir idxs fs).1 =
      .ok (idxs.map (fun idx => pathJoin workDir (pageFileName (idx + 1)))) := by
  induction idxs generalizing fs with
  | nil => rfl
  | cons idx rest ih =>
    have hrest : ∀ i ∈ rest, w.renderPage i = .ok () :=
      fun i hi => hr i (List.mem_cons_of_mem idx hi)
    unfold renderLoop
    rw [hr idx (List.mem_cons_self idx rest)]
    dsimp only
    have hih := ih (writeFile w fs (pathJoin workDir (pageFileName (idx + 1)))) hrest
    cases hrl : renderLoop w workDir rest
        (writeFile w fs (pathJoin workDir (pageFileName (idx + 1)))) with
    | mk r fs2 =>
      rw [hrl] at hih
      simp only at hih
      subst hih
      simp

/-- C3: on every successful invocation the emitted pages are numbered
sequentially `1..N` in processing order (the `i`-th page record carries page
number `i + 1`), and for a PDF with a page selection the processed page files
are exactly the selected zero-based indices — a strictly ascending list — in
ascending original-page order. -/
theorem pages_numbered_sequentially :
    ∀ (β : Type) (w : World β) (reqId : Str) (rmOk : Bool) (event : Event) (fs : FS)
      (ps : List (PageResult β)) (fs2 : FS) (d : PageResult β),
      (_handle_ocr w reqId rmOk event fs = (⟨200, .pages ps⟩, fs2) →
        ∀ i, i < ps.length → (ps.getD i d).page = i + 1)
      ∧ (∀ (pagesParam : Option Str) (total : Nat) (idxs : List Nat),
          parse_pages pagesParam total = .ok idxs →
            idxs.Sorted (· < ·)
            ∧ ((∀ i ∈ idxs, w.renderPage i = .ok ()) →
                (renderLoop w (tmpDir reqId) idxs fs).1 =
                  .ok (idxs.map (fun idx =>
                    pathJoin (tmpDir reqId) (pageFileName (idx + 1)))))) := by
  intro β w reqId rmOk event fs ps fs2 d
  constructor
  · intro h i hi
    unfold _handle_ocr at h
    dsimp only at h
    rw [Prod.mk.injEq] at h
    have h1 := h.1
    cases hpr : (parse_input w event (tmpDir reqId) fs).1 with
    | error e =>
      rw [hpr] at h1
      dsimp only at h1
      cases e with
      | valueError m => simp [respond] at h1
      | other ty m => simp [respond] at h1
    | ok pt =>
      rw [hpr] at h1
      dsimp only at h1
      have hrun := respond_eq_200 _ _ h1
      have := (runPages_ok w _ pt.1 1 ps hrun d).2 i hi
      omega
  · intro pagesParam total idxs hok
    refine ⟨(parse_pages_sorted_of_ok hok).1, ?_⟩
    intro hr
    exact renderLoop_paths w (tmpDir reqId) idxs fs hr

theorem pages_numbered_sequentially_witness :
    (([⟨1, ()⟩, ⟨2, ()⟩] : List (PageResult Unit)).getD 0 ⟨0, ()⟩).page = 1
    ∧ (([⟨1, ()⟩, ⟨2, ()⟩] : List (PageResult Unit)).getD 1 ⟨0, ()⟩).page = 2
    ∧ ([0, 2] : List Nat).Sorted (· < ·)
    ∧ (renderLoop pdfWorld (tmpDir "r1".toList) [0, 2] []).1 =
      .ok ([0, 2].map (fun idx => pathJoin (tmpDir "r1".toList) (pageFileName (idx + 1)))) := by
  obtain ⟨h1, h2⟩ := pages_numbered_sequentially Unit pdfWorld "r1".toList true pdfEvent []
    [⟨1, ()⟩, ⟨2, ()⟩] [] ⟨0, ()⟩
  have hrun : _handle_ocr pdfWorld "r1".toList true pdfEvent [] =
      (⟨200, .pages [⟨1, ()⟩, ⟨2, ()⟩]⟩, []) := by decide
  have h3 := h2 (some "1,3".toList) 3 [0, 2] (by rfl)
  exact ⟨h1 hrun 0 (by decide), h1 hrun 1 (by decide), h3.1,
    h3.2 (fun i hi => rfl)⟩

theorem writeFile_mem {β : Type} (w : World β) {p : Str} {fs : FS} (h : p ∈ fs) (q : Str) :
    p ∈ writeFile w fs q := by
  unfold writeFile
  split
  · exact List.mem_cons_of_mem q h
  · exact h

theorem renderLoop_mem {β : Type} (w : World β) (workDir : Str) (idxs : List Nat)
    {p : Str} : ∀ fs : FS, p ∈ fs → p ∈ (renderLoop w workDir idxs fs).2 := by
  induction idxs with
  | nil => intro fs h; exact h
  | cons idx rest ih =>
    intro fs h
    unfold renderLoop
    cases w.renderPage idx with
    | error e => exact h
    | ok u =>
      dsimp only
      have h1 := writeFile_mem w h (pathJoin workDir (pageFileName (idx + 1)))
      have h2 := ih (writeFile w fs (pathJoin workDir (pageFileName (idx + 1)))) h1
      cases hrl : renderLoop w workDir rest
          (writeFile w fs (pathJoin workDir (pageFileName (idx + 1)))) with
      | mk r fs2 =>
        rw [hrl] at h2
        cases r with
        | ok ps => exact h2
        | error e => exact h2

theorem render_pdf_pages_mem {β : Type} (w : World β) (data : Bytes) (workDir : Str)
    (pagesParam : Option Str) {p : Str} {fs : FS} (h : p ∈ fs) :
    p ∈ (render_pdf_pages w data workDir pagesParam fs).2 := by
  unfold render_pdf_pages
  cases w.pdfPageCount data with
  | error e => exact h
  | ok total =>
    dsimp only
    cases parse_pages pagesParam total with
    | error e => exact h
    | ok idxs => exact renderLoop_mem w workDir idxs fs h

theorem afterData_mem {β : Type} (w : World β) (data : Bytes) (workDir : Str)
    (pagesParam : Option Str) {p : Str} {fs : FS} (h : p ∈ fs) :
    p ∈ (afterData w data workDir pagesParam fs).2 := by
  unfold afterData
  split
  · have h2 := render_pdf_pages_mem w data workDir pagesParam h
    cases hrl : render_pdf_pages w data workDir pagesParam fs with
    | mk r fs2 =>
      rw [hrl] at h2
      cases r with
      | ok ps => exact h2
      | error e => exact h2
  · cases w.imageOpen data with
    | error e => exact h
    | ok u => exact writeFile_mem w h (pathJoin workDir "page_001.jpg".toList)

/-- The filesystem after `parse_input` either contains the working directory
(`os.makedirs` ran) or is untouched (the missing-image early raise). -/
theorem parse_input_fs {β : Type} (w : World β) (event : Event) (workDir : Str) (fs : FS) :
    workDir ∈ (parse_input w event workDir fs).2
    ∨ (parse_input w event workDir fs).2 = fs := by
  unfold parse_input
  cases lookupKey "image".toList event with
  | none => exact Or.inr rfl
  | some img =>
    dsimp only
    split
    · exact Or.inr rfl
    · have hw : workDir ∈ workDir :: fs := List.mem_cons_self workDir fs
      split
      · cases parseS3Uri img with
        | none => exact Or.inl hw
        | some bk =>
          dsimp only
          cases w.s3Download bk.1 bk.2 with
          | error e => exact Or.inl hw
          | ok data =>
            exact Or.inl (afterData_mem w data workDir (lookupKey "pages".toList event)
              (writeFile_mem w hw (pathJoin workDir "input_file".toList)))
      · cases w.b64decode img with
        | error e => exact Or.inl hw
        | ok data =>
          exact Or.inl (afterData_mem w data workDir (lookupKey "pages".toList event) hw)

/-- C8: on every exit path of an OCR invocation the request-scoped working
directory is absent afterwards (when the best-effort removal succeeds), any
path under it that survives predates the invocation, and the outcome of the
removal — including a swallowed failure — never changes the response. -/
theorem workdir_removed :
    ∀ (β : Type) (w : World β) (reqId : Str) (event : Event) (fs : FS),
      ((_handle_ocr w reqId true event fs).1 = (_handle_ocr w reqId false event fs).1)
      ∧ tmpDir reqId ∉ (_handle_ocr w reqId true event fs).2
      ∧ (∀ p, p ∈ (_handle_ocr w reqId true event fs).2 →
          List.isPrefixOf (tmpDir reqId ++ ['/']) p = true → p ∈ fs) := by
  intro β w reqId event fs
  refine ⟨rfl, ?_, ?_⟩
  · unfold _handle_ocr
    dsimp only
    by_cases hm : tmpDir reqId ∈ (parse_input w event (tmpDir reqId) fs).2
    · rw [if_pos hm]
      unfold rmtreeIg
      rw [if_pos rfl]
      intro hmem
      have := (List.mem_filter.mp hmem).2
      simp at this
    · rw [if_neg hm]
      exact hm
  · intro p hp hpre
    unfold _handle_ocr at hp
    dsimp only at hp
    by_cases hm : tmpDir reqId ∈ (parse_input w event (tmpDir reqId) fs).2
    · rw [if_pos hm] at hp
      unfold rmtreeIg at hp
      rw [if_pos rfl] at hp
      have := (List.mem_filter.mp hp).2
      rw [hpre] at this
      simp at this
    · rw [if_neg hm] at hp
      rcases parse_input_fs w event (tmpDir reqId) fs with hc | hc
      · exact absurd hc hm
      · rw [hc] at hp
        exact hp

theorem workdir_removed_witness :
    ((_handle_ocr okWorld "r1".toList true imgEvent []).1 =
      (_handle_ocr okWorld "r1".toList false imgEvent []).1)
    ∧ tmpDir "r1".toList ∉ (_handle_ocr okWorld "r1".toList true imgEvent []).2
    ∧ pathJoin (tmpDir "r1".toList) ['x'] ∈
        [pathJoin (tmpDir "r1".toList) ['x']] := by
  obtain ⟨h1, h2, h3⟩ := workdir_removed Unit okWorld "r1".toList imgEvent []
  obtain ⟨g1, g2, g3⟩ := workdir_removed Unit okWorld "r1".toList []
    [pathJoin (tmpDir "r1".toList) ['x']]
  exact ⟨h1, h2, g3 (pathJoin (tmpDir "r1".toList) ['x']) (by decide) (by decide)⟩

theorem respond_status {β : Type} (r : Except PyErr (List (PageResult β))) :
    (respond r).statusCode = 200 ∨ (respond r).statusCode = 400
    ∨ (respond r).statusCode = 500 := by
  match r with
  | .ok l => exact Or.inl rfl
  | .error (.valueError m) => exact Or.inr (Or.inl rfl)
  | .error (.other ty m) => exact Or.inr (Or.inr rfl)

theorem _handle_ocr_of_parse_error {β : Type} {w : World β} {reqId : Str} {rmOk : Bool}
    {event : Event} {fs : FS} {e : PyErr}
    (h : (parse_input w event (tmpDir reqId) fs).1 = .error e) :
    (_handle_ocr w reqId rmOk event fs).1 = respond (β := β) (.error e) := by
  unfold _handle_ocr
  try dsimp only
  simp only [h]

theorem parse_input_missing {β : Type} (w : World β) (event : Event) (workDir : Str)
    (fs : FS)
    (h : lookupKey "image".toList event = none ∨ lookupKey "image".toList event = some []) :
    parse_input w event workDir fs =
      (.error (.valueError "Missing required parameter: image".toList), fs) := by
  unfold parse_input
  rcases h with h | h
  · rw [h]
  · rw [h]
    rfl

theorem parse_input_badb64 {β : Type} (w : World β) (event : Event) (workDir : Str)
    (fs : FS) {img : Str} {e : PyErr}
    (himg : lookupKey "image".toList event = some img) (hne : img ≠ [])
    (hs3 : _is_s3_uri img = false) (hb64 : w.b64decode img = .error e) :
    (parse_input w event workDir fs).1 =
      .error (.valueError ("Failed to decode base64 image data: ".toList ++ e.str)) := by
  unfold parse_input
  rw [himg]
  try dsimp only
  rw [if_neg hne]
  rw [hs3]
  try dsimp only
  rw [hb64]
  rfl

theorem parse_input_baduri {β : Type} (w : World β) (event : Event) (workDir : Str)
    (fs : FS) {img : Str}
    (himg : lookupKey "image".toList event = some img) (hne : img ≠ [])
    (hs3 : _is_s3_uri img = true) (huri : parseS3Uri img = none) :
    (parse_input w event workDir fs).1 =
      .error (.valueError ("Invalid S3 URI: ".toList ++ img)) := by
  unfold parse_input
  rw [himg]
  try dsimp only
  rw [if_neg hne]
  rw [hs3]
  try dsimp only
  rw [huri]
  rfl

theorem parse_input_badimage {β : Type} (w : World β) (event : Event) (workDir : Str)
    (fs : FS) {img : Str} {data : Bytes} {e : PyErr}
    (himg : lookupKey "image".toList event = some img) (hne : img ≠ [])
    (hs3 : _is_s3_uri img = false) (hb64 : w.b64decode img = .ok data)
    (hpdf : _is_pdf data = false) (hopen : w.imageOpen data = .error e) :
    (parse_input w event workDir fs).1 =
      .error (.valueError ("Cannot decode image data: ".toList ++ e.str)) := by
  unfold parse_input
  rw [himg]
  try dsimp only
  rw [if_neg hne, hs3]
  try dsimp only
  rw [hb64]
  try dsimp only
  unfold afterData
  rw [hpdf]
  try dsimp only
  rw [hopen]
  rfl

theorem parse_input_badpages {β : Type} (w : World β) (event : Event) (workDir : Str)
    (fs : FS) {img : Str} {data : Bytes} {total : Nat} {e : PyErr}
    (himg : lookupKey "image".toList event = some img) (hne : img ≠ [])
    (hs3 : _is_s3_uri img = false) (hb64 : w.b64decode img = .ok data)
    (hpdf : _is_pdf data = true) (hcount : w.pdfPageCount data = .ok total)
    (hpages : parse_pages (lookupKey "pages".toList event) total = .error e) :
    (parse_input w event workDir fs).1 = .error e := by
  unfold parse_input
  rw [himg]
  try dsimp only
  rw [if_neg hne, hs3]
  try dsimp only
  rw [hb64]
  try dsimp only
  unfold afterData
  rw [hpdf]
  try dsimp only
  unfold render_pdf_pages
  rw [hcount]
  try dsimp only
  rw [hpages]
  rfl

theorem parse_input_image_ok {β : Type} (w : World β) (event : Event) (workDir : Str)
    (fs : FS) {img : Str} {data : Bytes}
    (himg : lookupKey "image".toList event = some img) (hne : img ≠ [])
    (hs3 : _is_s3_uri img = false) (hb64 : w.b64decode img = .ok data)
    (hpdf : _is_pdf data = false) (hopen : w.imageOpen data = .ok ()) :
    parse_input w event workDir fs =
      (.ok ([pathJoin workDir "page_001.jpg".toList], false),
        writeFile w (workDir :: fs) (pathJoin workDir "page_001.jpg".toList)) := by
  unfold parse_input
  rw [himg]
  try dsimp only
  rw [if_neg hne, hs3]
  try dsimp only
  rw [hb64]
  try dsimp only
  unfold afterData
  rw [hpdf]
  try dsimp only
  rw [hopen]
  rfl

theorem pathJoin_ne (d f : Str) : pathJoin d f ≠ d := by
  intro he
  have hl := congrArg List.length he
  simp only [pathJoin, List.length_append, List.length_cons] at hl
  omega

theorem takeWhile_until_slash (d2 : Str) :
    ∀ l1 : Str, (∀ c ∈ l1, (c != '/') = true) →
      List.takeWhile (fun c => c != '/') (l1 ++ '/' :: d2) = l1 := by
  intro l1 h1
  induction l1 with
  | nil =>
    exact @List.takeWhile_cons_of_neg Char (fun x => x != '/') '/' d2 (by decide)
  | cons c t ihc =>
    rw [List.cons_append,
      @List.takeWhile_cons_of_pos Char (fun x => x != '/') c (t ++ '/' :: d2)
        (h1 c (List.mem_cons_self c t)),
      ihc (fun x hx => h1 x (List.mem_cons_of_mem c hx))]

theorem basename_pathJoin (d f : Str) (hf : ∀ c ∈ f, (c != '/') = true) :
    basename (pathJoin d f) = f := by
  unfold basename pathJoin
  rw [List.reverse_append, List.reverse_cons, List.append_assoc, List.singleton_append,
    takeWhile_until_slash d.reverse f.reverse
      (fun c hc => hf c (List.mem_reverse.mp hc)),
    List.reverse_reverse]

/-- C2: a user-input fault raised during input parsing (missing or empty image
argument, undecodable base64, undecodable image bytes, malformed page-selection
token, invalid remote-object URI) yields statusCode 400 with a human-readable
message — for a missing image the message names the missing required
parameter — while any other exception (e.g. an expected page-image file absent
before recognition) yields statusCode 500 tagged `Internal error:`; in every
case the invocation returns a response (status 200, 400 or 500) instead of
propagating an exception. -/
theorem ocr_error_paths :
    ∀ (β : Type) (w : World β) (reqId : Str) (rmOk : Bool) (event : Event) (fs : FS),
      ((lookupKey "image".toList event = none ∨ lookupKey "image".toList event = some []) →
        (_handle_ocr w reqId rmOk event fs).1 =
          ⟨400, .error "Missing required parameter: image".toList⟩)
      ∧ (∀ img e, lookupKey "image".toList event = some img → img ≠ [] →
          _is_s3_uri img = false → w.b64decode img = .error e →
          (_handle_ocr w reqId rmOk event fs).1 =
            ⟨400, .error ("Failed to decode base64 image data: ".toList ++ e.str)⟩)
      ∧ (∀ img data e, lookupKey "image".toList event = some img → img ≠ [] →
          _is_s3_uri img = false → w.b64decode img = .ok data → _is_pdf data = false →
          w.imageOpen data = .error e →
          (_handle_ocr w reqId rmOk event fs).1 =
            ⟨400, .error ("Cannot decode image data: ".toList ++ e.str)⟩)
      ∧ (∀ img data total e, lookupKey "image".toList event = some img → img ≠ [] →
          _is_s3_uri img = false → w.b64decode img = .ok data → _is_pdf data = true →
          w.pdfPageCount data = .ok total →
          parse_pages (lookupKey "pages".toList event) total = .error e →
          (_handle_ocr w reqId rmOk event fs).1 = ⟨400, .error e.str⟩)
      ∧ (∀ img, lookupKey "image".toList event = some img → img ≠ [] →
          _is_s3_uri img = true → parseS3Uri img = none →
          (_handle_ocr w reqId rmOk event fs).1 =
            ⟨400, .error ("Invalid S3 URI: ".toList ++ img)⟩)
      ∧ (∀ img data, lookupKey "image".toList event = some img → img ≠ [] →
          _is_s3_uri img = false → w.b64decode img = .ok data → _is_pdf data = false →
          w.imageOpen data = .ok () →
          w.writeOk (pathJoin (tmpDir reqId) "page_001.jpg".toList) = false →
          pathJoin (tmpDir reqId) "page_001.jpg".toList ∉ fs →
          (_handle_ocr w reqId rmOk event fs).1 =
            ⟨500, .error
              ("Internal error: RuntimeError: Expected image file not found: page_001.jpg".toList)⟩)
      ∧ ((_handle_ocr w reqId rmOk event fs).1.statusCode = 200
          ∨ (_handle_ocr w reqId rmOk event fs).1.statusCode = 400
          ∨ (_handle_ocr w reqId rmOk event fs).1.statusCode = 500) := by
  intro β w reqId rmOk event fs
  refine ⟨?_, ?_, ?_, ?_, ?_, ?_, ?_⟩
  · intro h
    have hpi := parse_input_missing w event (tmpDir reqId) fs h
    exact _handle_ocr_of_parse_error (by rw [hpi])
  · intro img e himg hne hs3 hb64
    exact _handle_ocr_of_parse_error (parse_input_badb64 w event (tmpDir reqId) fs
      himg hne hs3 hb64)
  · intro img data e himg hne hs3 hb64 hpdf hopen
    exact _handle_ocr_of_parse_error (parse_input_badimage w event (tmpDir reqId) fs
      himg hne hs3 hb64 hpdf hopen)
  · intro img data total e himg hne hs3 hb64 hpdf hcount hpages
    have he := parse_pages_err hpages
    obtain ⟨m, rfl⟩ := he
    exact _handle_ocr_of_parse_error (parse_input_badpages w event (tmpDir reqId) fs
      himg hne hs3 hb64 hpdf hcount hpages)
  · intro img himg hne hs3 huri
    exact _handle_ocr_of_parse_error (parse_input_baduri w event (tmpDir reqId) fs
      himg hne hs3 huri)
  · intro img data himg hne hs3 hb64 hpdf hopen hwr hmem
    have hpi := parse_input_image_ok w event (tmpDir reqId) fs himg hne hs3 hb64 hpdf hopen
    unfold _handle_ocr
    try dsimp only
    rw [hpi]
    try dsimp only
    have hfs : writeFile w (tmpDir reqId :: fs)
        (pathJoin (tmpDir reqId) "page_001.jpg".toList) = tmpDir reqId :: fs := by
      unfold writeFile
      rw [hwr]
      rfl
    rw [hfs]
    have hnm : pathJoin (tmpDir reqId) "page_001.jpg".toList ∉ tmpDir reqId :: fs := by
      intro hc
      rcases List.mem_cons.mp hc with hc | hc
      · exact pathJoin_ne (tmpDir reqId) "page_001.jpg".toList hc
      · exact hmem hc
    unfold runPages
    rw [if_neg hnm]
    rw [basename_pathJoin (tmpDir reqId) "page_001.jpg".toList (by decide)]
    rfl
  · unfold _handle_ocr
    try dsimp only
    cases hpr : (parse_input w event (tmpDir reqId) fs).1 with
    | error e =>
      simp only [hpr]
      exact respond_status _
    | ok pt =>
      simp only [hpr]
      exact respond_status _

theorem ocr_error_paths_witness :
    ((_handle_ocr okWorld "r1".toList true ([] : Event) []).1 =
      ⟨400, .error "Missing required parameter: image".toList⟩)
    ∧ ((_handle_ocr badB64World "r1".toList true imgEvent []).1 =
      ⟨400, .error ("Failed to decode base64 image data: ".toList
        ++ (PyErr.other "Error".toList "bad padding".toList).str)⟩)
    ∧ ((_handle_ocr badImgWorld "r1".toList true imgEvent []).1 =
      ⟨400, .error ("Cannot decode image data: ".toList
        ++ (PyErr.other "UnidentifiedImageError".toList "cannot identify".toList).str)⟩)
    ∧ ((_handle_ocr pdfWorld "r1".toList true
        [("image".toList, "QUFB".toList), ("pages".toList, ['x'])] []).1 =
      ⟨400, .error (PyErr.valueError (invalidIntMsg ['x'])).str⟩)
    ∧ ((_handle_ocr okWorld "r1".toList true [("image".toList, "s3://x".toList)] []).1 =
      ⟨400, .error ("Invalid S3 URI: ".toList ++ "s3://x".toList)⟩)
    ∧ ((_handle_ocr noWriteWorld "r1".toList true imgEvent []).1 =
      ⟨500, .error
        ("Internal error: RuntimeError: Expected image file not found: page_001.jpg".toList)⟩)
    ∧ ((_handle_ocr okWorld "r1".toList true imgEvent []).1.statusCode = 200
        ∨ (_handle_ocr okWorld "r1".toList true imgEvent []).1.statusCode = 400
        ∨ (_handle_ocr okWorld "r1".toList true imgEvent []).1.statusCode = 500) := by
  obtain ⟨a1, _, _, _, _, _, _⟩ :=
    ocr_error_paths Unit okWorld "r1".toList true ([] : Event) []
  obtain ⟨_, b2, _, _, _, _, _⟩ :=
    ocr_error_paths Unit badB64World "r1".toList true imgEvent []
  obtain ⟨_, _, c3, _, _, _, _⟩ :=
    ocr_error_paths Unit badImgWorld "r1".toList true imgEvent []
  obtain ⟨_, _, _, d4, _, _, _⟩ := ocr_error_paths Unit pdfWorld "r1".toList true
    [("image".toList, "QUFB".toList), ("pages".toList, ['x'])] []
  obtain ⟨_, _, _, _, e5, _, _⟩ :=
    ocr_error_paths Unit okWorld "r1".toList true [("image".toList, "s3://x".toList)] []
  obtain ⟨_, _, _, _, _, f6, _⟩ :=
    ocr_error_paths Unit noWriteWorld "r1".toList true imgEvent []
  obtain ⟨_, _, _, _, _, _, g7⟩ :=
    ocr_error_paths Unit okWorld "r1".toList true imgEvent []
  refine ⟨a1 (Or.inl rfl), ?_, ?_, ?_, ?_, ?_, g7⟩
  · exact b2 "QUFB".toList (.other "Error".toList "bad padding".toList)
      rfl (by decide) (by decide) rfl
  · exact c3 "QUFB".toList [1, 2, 3]
      (.other "UnidentifiedImageError".toList "cannot identify".toList)
      rfl (by decide) (by decide) rfl (by decide) rfl
  · exact d4 "QUFB".toList pdfMagic 3 (.valueError (invalidIntMsg ['x']))
      rfl (by decide) (by decide) rfl (by decide) rfl rfl
  · exact e5 "s3://x".toList rfl (by decide) (by decide) rfl
  · exact f6 "QUFB".toList [1, 2, 3]
      rfl (by decide) (by decide) rfl (by decide) rfl rfl (by decide)
